import Mathlib

/-!
Shallow embedding of the registry-backed package fetcher
(crates/rogga/src/fetch/npm.rs, `NpmFetcher`).

URLs are modeled as strings; URL joining, the HTTP transport and JSON
parsing are external collaborators (the url crate, OroClient, serde_json)
and are modeled as an explicit environment of functions.  Stateful code is
embedded as explicit state passing: each operation returns its result, the
updated fetcher state (the packument cache is the only mutable state), and
a trace of the observable events it performed (lock acquisition/release,
cache lookups, network requests), in program order.  Rust panics
(`unreachable!`, `panic!`, `.unwrap()` on `None`) are a distinct outcome
from recoverable `Err` results, mirroring the distinction the source makes.
-/

deriving instance DecidableEq for Except

/-- URLs are modeled as plain strings; their structure is irrelevant to the
fetcher, which only builds them via the external join operation and uses
them as cache keys. -/
abbrev Url := String

/-- Per-version manifest fields (packument.rs `VersionMetadata`), reduced to
the fields this layer consumes: the version string and the tarball URL. -/
structure VersionMetadata where
  version : String
  tarball : Url
deriving DecidableEq, Repr

/-- A registry metadata document (packument.rs `Packument`): a mapping from
version string to per-version metadata.  Other passthrough fields are not
consumed by the fetcher and are omitted. -/
structure Packument where
  versions : List (String × VersionMetadata)
deriving DecidableEq, Repr

/-- Package specifier (oro-package-spec `PackageSpec`), as consumed by
npm.rs: the `Npm` variant carries an optional scope and a name, the `Alias`
variant carries the display name and the target spec.  The `dir` variant
stands for the other source kinds (local path and the like) that this
backend does not handle. -/
inductive PackageSpec where
  | npm (scope : Option String) (name : String)
  | alias (name : String) (package : PackageSpec)
  | dir (path : String)
deriving DecidableEq, Repr

/-- Resolution outcome (resolver.rs `PackageResolution`), as consumed by
npm.rs: the `Npm` variant carries the chosen version and the tarball URL;
`dir` stands for the non-registry variants. -/
inductive PackageResolution where
  | npm (version : String) (tarball : Url)
  | dir (path : String)
deriving DecidableEq, Repr

/-- A resolved package (package.rs `Package`): the originating spec
(`from` in the source; `from` is a Lean keyword) and the resolution. -/
structure Package where
  from_ : PackageSpec
  resolved : PackageResolution
deriving DecidableEq, Repr

/-- The diagnostic code attached to metadata parse failures in npm.rs. -/
inductive DiagnosticCode where
  | OR1006
deriving DecidableEq, Repr

/-- The error values npm.rs produces on its recoverable failure paths:
`withContext ctx cause` models `.with_context(|| ctx)` wrapping an
underlying error (URL join failure, transport failure), `miscError`
models `Error::MiscError` (body-read failure), and `serdeError` models
`Error::SerdeError { code, name, data, serde_error }` (parse failure,
retaining the full raw body in `data`). -/
inductive Error where
  | withContext (context : String) (cause : String)
  | miscError (msg : String)
  | serdeError (code : DiagnosticCode) (name : String) (data : String) (serde_error : String)
deriving DecidableEq, Repr

/-- Outcome of a trait-level operation: a value, a recoverable error
(Rust `Err`), or a crash (Rust panic / `unreachable!`). -/
inductive RunResult (α : Type) where
  | ok (a : α)
  | err (e : Error)
  | crash (msg : String)
deriving DecidableEq, Repr

/-- Whether a `RunResult` is a recoverable error. -/
def RunResult.isErr {α : Type} : RunResult α → Bool
  | .err _ => true
  | _ => false

/-- Observable events of a fetcher operation, in program order: acquiring
and releasing the client mutex, a cache lookup keyed by URL, and a network
request to a URL (with its Accept header when one is set). -/
inductive Event where
  | lockAcquire
  | lockRelease
  | cacheLookup (url : Url)
  | networkRequest (url : Url) (accept : Option String)
deriving DecidableEq, Repr

/-- Outcome of `client.send(...)` followed by `.body_string()`: a transport
failure, a body-read failure, or the full response body. -/
inductive SendOutcome where
  | transportError (msg : String)
  | bodyError (msg : String)
  | body (data : String)
deriving DecidableEq, Repr

/-- The external collaborators, as a deterministic environment:
`join base name` is `Url::join` (which can fail with a parse error),
`send url accept` is the GET request for a packument with the given Accept
header, `sendStream url` is the GET request for a tarball returning the
response byte stream (modeled as its content), and `parse body` is
`serde_json::from_str::<Packument>`. -/
structure Env where
  join : Url → String → Except String Url
  send : Url → String → SendOutcome
  sendStream : Url → Except String String
  parse : String → Except String Packument

/-- First-match lookup in an association list, modeling `HashMap::get` /
`DashMap::get` (keys are unique in the source maps, and cache overwrite is
modeled by prepending, so first-match lookup gives map semantics). -/
def mapGet {α : Type} : List (String × α) → String → Option α
  | [], _ => none
  | (k, v) :: rest, key => if k = key then some v else mapGet rest key

/-- The fetcher state (npm.rs `NpmFetcher`): the corgi flag and registry
table are set at construction and never written; `packuments` is the
mutable URL-keyed packument cache (a `DashMap` in the source).  The shared
client lives in the environment. -/
structure NpmFetcher where
  use_corgi : Bool
  registries : List (String × Url)
  packuments : List (Url × Packument)
deriving DecidableEq, Repr

/-- npm.rs `NpmFetcher::pick_registry`: scope entry, else empty-scope
entry, else the hard-coded default; without a scope, empty-scope entry
else the default. -/
def NpmFetcher.pick_registry (self : NpmFetcher) (scope : Option String) : Url :=
  match scope with
  | some s =>
    match mapGet self.registries s with
    | some u => u
    | none =>
      match mapGet self.registries "" with
      | some u => u
      | none => "https://registry.npmjs.org/"
  | none =>
    match mapGet self.registries "" with
    | some u => u
    | none => "https://registry.npmjs.org/"

/-- npm.rs `NpmFetcher::packument_from_name`, step for step: clone the
client under the mutex (lock acquired and released before anything else),
join the picked registry URL with the name (failure → context error
"Invalid package name: ..."), consult the cache by the joined URL (hit →
return the cached value, no request), otherwise send a GET with the
corgi-dependent Accept header (transport failure → context error,
body-read failure → MiscError), parse the body (failure → SerdeError
carrying the name, the raw body and the cause), and only then insert into
the cache and return. -/
def NpmFetcher.packument_from_name (env : Env) (self : NpmFetcher)
    (scope : Option String) (name : String) :
    Except Error Packument × NpmFetcher × List Event :=
  match env.join (self.pick_registry scope) name with
  | .error cause =>
    (.error (.withContext ("Invalid package name: " ++ name) cause), self,
      [.lockAcquire, .lockRelease])
  | .ok packument_url =>
    match mapGet self.packuments packument_url with
    | some packument =>
      (.ok packument, self,
        [.lockAcquire, .lockRelease, .cacheLookup packument_url])
    | none =>
      let accept : String :=
        if self.use_corgi then
          "application/vnd.npm.install-v1+json; q=1.0, application/json; q=0.8, */*"
        else
          "application/json"
      let tr : List Event :=
        [.lockAcquire, .lockRelease, .cacheLookup packument_url,
          .networkRequest packument_url (some accept)]
      match env.send packument_url accept with
      | .transportError cause =>
        (.error (.withContext ("Failed to get packument for " ++ name ++ ".") cause), self, tr)
      | .bodyError e => (.error (.miscError e), self, tr)
      | .body packument_data =>
        match env.parse packument_data with
        | .error err =>
          (.error (.serdeError .OR1006 name packument_data err), self, tr)
        | .ok packument =>
          (.ok packument,
            { self with packuments := (packument_url, packument) :: self.packuments }, tr)

/-- npm.rs `PackageFetcher::name for NpmFetcher`: the contained name for
`Npm` and `Alias` specs (no state, no events), `unreachable!()` for every
other variant.  The unused `base_dir` parameter is omitted. -/
def NpmFetcher.name (spec : PackageSpec) : RunResult String × List Event :=
  match spec with
  | .npm _ n => (.ok n, [])
  | .alias n _ => (.ok n, [])
  | _ => (.crash "internal error: entered unreachable code", [])

/-- npm.rs `PackageFetcher::packument for NpmFetcher`: unwrap an `Alias`
to its target package first, then fetch by the target's scope and name;
`unreachable!()` when the spec (or the alias target) is not `Npm`. -/
def NpmFetcher.packument (env : Env) (self : NpmFetcher) (spec : PackageSpec) :
    RunResult Packument × NpmFetcher × List Event :=
  match spec with
  | .alias _ package =>
    match package with
    | .npm scope n =>
      match self.packument_from_name env scope n with
      | (.ok p, self', tr) => (.ok p, self', tr)
      | (.error e, self', tr) => (.err e, self', tr)
    | _ => (.crash "internal error: entered unreachable code", self, [])
  | .npm scope n =>
    match self.packument_from_name env scope n with
    | (.ok p, self', tr) => (.ok p, self', tr)
    | (.error e, self', tr) => (.err e, self', tr)
  | _ => (.crash "internal error: entered unreachable code", self, [])

/-- npm.rs `PackageFetcher::metadata for NpmFetcher`: panic when the
resolution is not the `Npm` variant; otherwise fetch the packument for
`pkg.from` and look the wanted version up in its versions map — via
`.unwrap()`, so a missing version is a panic (the source marks it
`TODO: unwrap`), not a recoverable error. -/
def NpmFetcher.metadata (env : Env) (self : NpmFetcher) (pkg : Package) :
    RunResult VersionMetadata × NpmFetcher × List Event :=
  match pkg.resolved with
  | .npm version _ =>
    match self.packument env pkg.from_ with
    | (.ok packument, self', tr) =>
      match mapGet packument.versions version with
      | some vm => (.ok vm, self', tr)
      | none => (.crash "called Option::unwrap on a None value", self', tr)
    | (.err e, self', tr) => (.err e, self', tr)
    | (.crash m, self', tr) => (.crash m, self', tr)
  | _ => (.crash "How did a non-Npm resolution get here?", self, [])

/-- npm.rs `PackageFetcher::tarball for NpmFetcher`: clone the client under
the mutex, panic when the resolution is not `Npm`, otherwise GET the
resolution's tarball URL (no Accept header) and return the response stream
(modeled as its content); transport failure → context error.  The source
formats the resolution into the context message; the message text is not
load-bearing here. -/
def NpmFetcher.tarball (env : Env) (_self : NpmFetcher) (pkg : Package) :
    RunResult String × List Event :=
  match pkg.resolved with
  | .npm _ url =>
    match env.sendStream url with
    | .ok stream =>
      (.ok stream, [.lockAcquire, .lockRelease, .networkRequest url none])
    | .error cause =>
      (.err (.withContext "Failed to get tarball." cause),
        [.lockAcquire, .lockRelease, .networkRequest url none])
  | _ => (.crash "How did a non-Npm resolution get here?", [.lockAcquire, .lockRelease])

/-- A spec variant the registry backend does not handle: neither `Npm`
nor `Alias`. -/
def PackageSpec.unhandledByNpm : PackageSpec → Bool
  | .npm _ _ => false
  | .alias _ _ => false
  | _ => true

/-- The lock discipline of §5: the client mutex is acquired once, at the
very start, and released immediately after the clone — before every other
event of the trace, in particular before any network request — and is
never re-acquired. -/
def lockDiscipline (tr : List Event) : Prop :=
  ∃ rest, tr = Event.lockAcquire :: Event.lockRelease :: rest ∧
    Event.lockAcquire ∉ rest ∧ Event.lockRelease ∉ rest

/-- Concrete fetcher with the two-entry registry table of §8 property 2,
used by witnesses. -/
def fetcherRegs : NpmFetcher :=
  ⟨false, [("", "https://a.example/"), ("@foo", "https://b.example/")], []⟩

/-- Concrete environment for witnesses: joining appends the name to the
base, the packument request returns a fixed body, the parse of that body
yields a one-version packument. -/
def envOk : Env where
  join base n := .ok (base ++ n)
  send _ _ := .body "BODY"
  sendStream _ := .ok "TAR"
  parse _ := .ok ⟨[("1.0.0", ⟨"1.0.0", "https://t.example/x.tgz"⟩)]⟩

/-- Environment for the C6 failing input: the fetched packument parses
successfully but its versions map only contains 2.0.0. -/
def envMissingVersion : Env where
  join base n := .ok (base ++ n)
  send _ _ := .body "BODY"
  sendStream _ := .ok "TAR"
  parse _ := .ok ⟨[("2.0.0", ⟨"2.0.0", "https://t.example/x-2.tgz"⟩)]⟩

/-- The C6 failing input: a package resolved to registry version 1.0.0
whose successfully retrieved packument has no 1.0.0 entry. -/
def pkgMissingVersion : Package :=
  ⟨.npm none "foo", .npm "1.0.0" "https://t.example/x-1.tgz"⟩

/-- The packument `envOk` produces, used by witnesses. -/
def packW : Packument := ⟨[("1.0.0", ⟨"1.0.0", "https://t.example/x.tgz"⟩)]⟩

/-- The metadata URL `envOk` joins for package "x" on the default
registry, used by witnesses. -/
def urlW : Url := "https://registry.npmjs.org/x"

/-- Fetcher state after one successful fetch of "x" through `envOk`,
used by witnesses. -/
def fetcherW2 : NpmFetcher := ⟨false, [], [(urlW, packW)]⟩

/-- Trace of the first (cache-missing) fetch of "x" through `envOk`,
used by witnesses. -/
def trW : List Event :=
  [.lockAcquire, .lockRelease, .cacheLookup urlW,
    .networkRequest urlW (some "application/json")]

/-- The compact ("corgi") Accept header value, used by witnesses. -/
def corgiW : String :=
  "application/vnd.npm.install-v1+json; q=1.0, application/json; q=0.8, */*"

/-- Environment whose packument body does not parse, used by witnesses. -/
def envBadParse : Env where
  join base n := .ok (base ++ n)
  send _ _ := .body "NOT JSON"
  sendStream _ := .ok "TAR"
  parse _ := .error "expected value at line 1 column 1"

/-- Environment whose URL join always fails, used by witnesses. -/
def envBadJoin : Env where
  join _ _ := .error "empty host"
  send _ _ := .body "BODY"
  sendStream _ := .ok "TAR"
  parse _ := .error "unreached"

/-- The registry table and corgi flag of a fetcher do not depend on its
packument cache; in particular `pick_registry` is unchanged by a cache
insert. -/
lemma pick_registry_ignores_cache (f : NpmFetcher) (c : List (Url × Packument))
    (scope : Option String) :
    NpmFetcher.pick_registry { f with packuments := c } scope = f.pick_registry scope := rfl

/-- A network-request event occurring in the trace of a cache-missing
fetch carries the Accept header selected by the corgi flag. -/
lemma accept_of_mem_trace (f : NpmFetcher) (pu u : Url) (a : String)
    (h : Event.networkRequest u (some a) ∈
      [Event.lockAcquire, Event.lockRelease, Event.cacheLookup pu,
        Event.networkRequest pu (some (if f.use_corgi then
          "application/vnd.npm.install-v1+json; q=1.0, application/json; q=0.8, */*"
        else "application/json"))]) :
    (f.use_corgi = true →
      a = "application/vnd.npm.install-v1+json; q=1.0, application/json; q=0.8, */*") ∧
    (f.use_corgi = false → a = "application/json") := by
  simp at h
  obtain ⟨-, ha⟩ := h
  cases hcor : f.use_corgi
  · rw [hcor] at ha
    simp at ha
    exact ⟨by simp [hcor], fun _ => ha⟩
  · rw [hcor] at ha
    simp at ha
    exact ⟨fun _ => ha, by simp [hcor]⟩

/-- Claim C3: `pick_registry` is the three-tier fallback.  With a scope:
the scope's entry when present, else the empty-scope entry when present,
else the hard-coded default registry URL.  Without a scope: the
empty-scope entry when present, else the default.  On an empty table every
lookup yields the default. -/
theorem pick_registry_three_tier (f : NpmFetcher) (s : String) (u : Url) :
    (mapGet f.registries s = some u → f.pick_registry (some s) = u) ∧
    (mapGet f.registries s = none → mapGet f.registries "" = some u →
      f.pick_registry (some s) = u) ∧
    (mapGet f.registries s = none → mapGet f.registries "" = none →
      f.pick_registry (some s) = "https://registry.npmjs.org/") ∧
    (mapGet f.registries "" = some u → f.pick_registry none = u) ∧
    (mapGet f.registries "" = none → f.pick_registry none = "https://registry.npmjs.org/") ∧
    (f.registries = [] → f.pick_registry (some s) = "https://registry.npmjs.org/" ∧
      f.pick_registry none = "https://registry.npmjs.org/") := by
  refine ⟨?_, ?_, ?_, ?_, ?_, ?_⟩
  · intro h; simp [NpmFetcher.pick_registry, h]
  · intro h h'; simp [NpmFetcher.pick_registry, h, h']
  · intro h h'; simp [NpmFetcher.pick_registry, h, h']
  · intro h; simp [NpmFetcher.pick_registry, h]
  · intro h; simp [NpmFetcher.pick_registry, h]
  · intro h; simp [NpmFetcher.pick_registry, h, mapGet]

/-- Witness for C3 at the concrete table of §8 property 2: the scoped
entry wins for its scope. -/
theorem pick_registry_three_tier_witness :
    mapGet fetcherRegs.registries "@foo" = some "https://b.example/" ∧
    fetcherRegs.pick_registry (some "@foo") = "https://b.example/" :=
  ⟨by decide,
    (pick_registry_three_tier fetcherRegs "@foo" "https://b.example/").1 (by decide)⟩

/-- Claim C2: for an `Alias` spec whose target is an `Npm` spec,
`packument` behaves exactly as on the target itself — it fetches by the
target's scope and name, not the alias's display name — while `name`
returns the alias's own name with an empty event trace (in particular, no
network request). -/
theorem alias_packument_targets_aliased_name (env : Env) (f : NpmFetcher)
    (aname : String) (scope : Option String) (tname : String) :
    NpmFetcher.packument env f (.alias aname (.npm scope tname)) =
      NpmFetcher.packument env f (.npm scope tname) ∧
    NpmFetcher.name (.alias aname (.npm scope tname)) = (.ok aname, []) :=
  ⟨rfl, rfl⟩

/-- Claim C7 counterexample: on a spec variant the backend cannot handle
(a directory spec), `name` does not return an `UnsupportedSpec` error —
it returns no recoverable error at all, crashing with the
unreachable-code panic. -/
theorem name_unsupported_no_error :
    (NpmFetcher.name (PackageSpec.dir "/some/path")).1 =
      .crash "internal error: entered unreachable code" ∧
    (NpmFetcher.name (PackageSpec.dir "/some/path")).1.isErr = false := by
  decide

/-- Claim C7 as amended: for every spec variant the backend cannot handle
(neither `Npm` nor `Alias`), `name` neither misinterprets the variant nor
returns a name: it halts with the fatal unreachable-code panic (a
contract-violation crash), not a recoverable `UnsupportedSpec` error. -/
theorem name_unsupported_crashes (s : PackageSpec) (h : s.unhandledByNpm = true) :
    NpmFetcher.name s = (.crash "internal error: entered unreachable code", []) := by
  rcases s with ⟨scope, n⟩ | ⟨n, t⟩ | p
  · simp [PackageSpec.unhandledByNpm] at h
  · simp [PackageSpec.unhandledByNpm] at h
  · rfl

/-- Witness for the amended C7 at a concrete directory spec. -/
theorem name_unsupported_crashes_witness :
    (PackageSpec.dir "/w").unhandledByNpm = true ∧
    NpmFetcher.name (PackageSpec.dir "/w") =
      (.crash "internal error: entered unreachable code", []) :=
  ⟨by decide, name_unsupported_crashes (PackageSpec.dir "/w") (by decide)⟩

/-- Claim C6, evaluated at the failing input: with a successfully
retrieved packument lacking the requested version, `metadata` does not
return a recoverable `VersionNotFound` error — it crashes via the
`.unwrap()` the source itself marks `TODO: unwrap`. -/
theorem metadata_missing_version_crashes :
    (NpmFetcher.metadata envMissingVersion ⟨false, [], []⟩ pkgMissingVersion).1 =
      .crash "called Option::unwrap on a None value" ∧
    (NpmFetcher.metadata envMissingVersion ⟨false, [], []⟩ pkgMissingVersion).1.isErr =
      false := by
  decide

/-- Claim C10: every error return of `packument_from_name` — invalid URL
join, transport failure, body-read failure, or parse failure — leaves the
fetcher (and in particular its packument cache) exactly as it was: an
entry is inserted only on the single success path, after the body has
parsed as a Packument. -/
theorem error_leaves_cache_unchanged (env : Env) (f : NpmFetcher) (scope : Option String)
    (name : String) (e : Error) (f' : NpmFetcher) (tr : List Event)
    (h : NpmFetcher.packument_from_name env f scope name = (.error e, f', tr)) :
    f' = f := by
  simp only [NpmFetcher.packument_from_name] at h
  split at h
  · simp only [Prod.mk.injEq] at h
    exact h.2.1.symm
  · split at h
    · simp at h
    · split at h
      · simp only [Prod.mk.injEq] at h
        exact h.2.1.symm
      · simp only [Prod.mk.injEq] at h
        exact h.2.1.symm
      · split at h
        · simp only [Prod.mk.injEq] at h
          exact h.2.1.symm
        · simp at h

/-- Witness for C10: a failing parse leaves the empty cache empty. -/
theorem error_leaves_cache_unchanged_witness :
    NpmFetcher.packument_from_name envBadParse ⟨false, [], []⟩ none "x" =
      (.error (.serdeError .OR1006 "x" "NOT JSON" "expected value at line 1 column 1"),
        ⟨false, [], []⟩, trW) ∧
    (⟨false, [], []⟩ : NpmFetcher) = ⟨false, [], []⟩ :=
  ⟨by decide,
    error_leaves_cache_unchanged envBadParse ⟨false, [], []⟩ none "x"
      (.serdeError .OR1006 "x" "NOT JSON" "expected value at line 1 column 1")
      ⟨false, [], []⟩ trW (by decide)⟩

/-- Claim C8: when joining the picked registry URL with the package name
fails, `packument_from_name` returns the invalid-package-name context
error with the fetcher unchanged, and its trace contains no cache lookup
and no network request — the failure happens before either. -/
theorem invalid_name_fails_before_cache_or_network (env : Env) (f : NpmFetcher)
    (scope : Option String) (name : String) (cause : String)
    (hj : env.join (f.pick_registry scope) name = .error cause) :
    NpmFetcher.packument_from_name env f scope name =
      (.error (.withContext ("Invalid package name: " ++ name) cause), f,
        [.lockAcquire, .lockRelease]) ∧
    (∀ u, Event.cacheLookup u ∉ (NpmFetcher.packument_from_name env f scope name).2.2) ∧
    (∀ u a, Event.networkRequest u a ∉ (NpmFetcher.packument_from_name env f scope name).2.2) := by
  refine ⟨?_, ?_, ?_⟩ <;> simp [NpmFetcher.packument_from_name, hj]

/-- Witness for C8 under an always-failing join. -/
theorem invalid_name_fails_witness :
    envBadJoin.join ((⟨false, [], []⟩ : NpmFetcher).pick_registry none) "x" =
      .error "empty host" ∧
    NpmFetcher.packument_from_name envBadJoin ⟨false, [], []⟩ none "x" =
      (.error (.withContext "Invalid package name: x" "empty host"), ⟨false, [], []⟩,
        [.lockAcquire, .lockRelease]) :=
  ⟨by decide,
    (invalid_name_fails_before_cache_or_network envBadJoin ⟨false, [], []⟩ none "x"
      "empty host" (by decide)).1⟩

/-- Claim C5: when the response body fails to parse as a Packument,
`packument_from_name` returns the SerdeError (the MetadataParseError
kind) carrying the package name, the complete raw response body and the
underlying parse cause, with the fetcher unchanged — no partial or
default Packument is substituted. -/
theorem parse_failure_retains_raw_body (env : Env) (f : NpmFetcher) (scope : Option String)
    (name : String) (u : Url) (data cause : String)
    (hj : env.join (f.pick_registry scope) name = .ok u)
    (hc : mapGet f.packuments u = none)
    (hs : env.send u (if f.use_corgi then
        "application/vnd.npm.install-v1+json; q=1.0, application/json; q=0.8, */*"
      else "application/json") = .body data)
    (hp : env.parse data = .error cause) :
    NpmFetcher.packument_from_name env f scope name =
      (.error (.serdeError .OR1006 name data cause), f,
        [.lockAcquire, .lockRelease, .cacheLookup u,
          .networkRequest u (some (if f.use_corgi then
            "application/vnd.npm.install-v1+json; q=1.0, application/json; q=0.8, */*"
          else "application/json"))]) := by
  simp only [NpmFetcher.packument_from_name, hj, hc, hs, hp]

/-- Witness for C5: a non-JSON body surfaces in the error payload. -/
theorem parse_failure_retains_raw_body_witness :
    envBadParse.parse "NOT JSON" = .error "expected value at line 1 column 1" ∧
    NpmFetcher.packument_from_name envBadParse ⟨false, [], []⟩ none "x" =
      (.error (.serdeError .OR1006 "x" "NOT JSON" "expected value at line 1 column 1"),
        ⟨false, [], []⟩,
        [.lockAcquire, .lockRelease, .cacheLookup urlW,
          .networkRequest urlW (some (if (false : Bool) then
            "application/vnd.npm.install-v1+json; q=1.0, application/json; q=0.8, */*"
          else "application/json"))]) :=
  ⟨by decide,
    parse_failure_retains_raw_body envBadParse ⟨false, [], []⟩ none "x" urlW
      "NOT JSON" "expected value at line 1 column 1"
      (by decide) (by decide) (by decide) (by decide)⟩

/-- Claim C4: any network request issued by `packument_from_name` carries
exactly the Accept header determined by the construction-time corgi flag:
the compact corgi header when the flag is set, plain application/json when
it is not. -/
theorem accept_header_by_corgi_flag (env : Env) (f : NpmFetcher) (scope : Option String)
    (name : String) (u : Url) (a : String)
    (h : Event.networkRequest u (some a) ∈
      (NpmFetcher.packument_from_name env f scope name).2.2) :
    (f.use_corgi = true →
      a = "application/vnd.npm.install-v1+json; q=1.0, application/json; q=0.8, */*") ∧
    (f.use_corgi = false → a = "application/json") := by
  simp only [NpmFetcher.packument_from_name] at h
  rcases hj : env.join (f.pick_registry scope) name with cause | pu <;>
    rw [hj] at h <;> simp only [] at h
  · simp at h
  · rcases hc : mapGet f.packuments pu with - | q <;> rw [hc] at h <;> simp only [] at h
    · rcases hs : env.send pu (if f.use_corgi then
            "application/vnd.npm.install-v1+json; q=1.0, application/json; q=0.8, */*"
          else "application/json") with m | m | data <;>
        rw [hs] at h <;> simp only [] at h
      · exact accept_of_mem_trace f pu u a h
      · exact accept_of_mem_trace f pu u a h
      · rcases hp : env.parse data with c | q <;> rw [hp] at h <;> simp only [] at h
        · exact accept_of_mem_trace f pu u a h
        · exact accept_of_mem_trace f pu u a h
    · simp at h

/-- Witness for C4: with the corgi flag set, the issued request carries
the compact Accept header. -/
theorem accept_header_witness :
    Event.networkRequest "https://registry.npmjs.org/x" (some corgiW) ∈
      (NpmFetcher.packument_from_name envOk ⟨true, [], []⟩ none "x").2.2 ∧
    (((⟨true, [], []⟩ : NpmFetcher).use_corgi = true →
      corgiW = "application/vnd.npm.install-v1+json; q=1.0, application/json; q=0.8, */*") ∧
    ((⟨true, [], []⟩ : NpmFetcher).use_corgi = false → corgiW = "application/json")) :=
  ⟨by decide,
    accept_header_by_corgi_flag envOk ⟨true, [], []⟩ none "x"
      "https://registry.npmjs.org/x" corgiW (by decide)⟩

/-- Claim C1: after one successful `packument_from_name` for a scope and
name, a repeated call with the same scope and name is answered from the
cache: it returns the same Packument, leaves the state untouched, and its
trace contains no network request. -/
theorem second_call_hits_cache (env : Env) (f : NpmFetcher) (scope : Option String)
    (name : String) (p : Packument) (f' : NpmFetcher) (tr : List Event)
    (h : NpmFetcher.packument_from_name env f scope name = (.ok p, f', tr)) :
    ∃ tr', NpmFetcher.packument_from_name env f' scope name = (.ok p, f', tr') ∧
      ∀ u a, Event.networkRequest u a ∉ tr' := by
  simp only [NpmFetcher.packument_from_name] at h
  rcases hj : env.join (f.pick_registry scope) name with cause | u <;>
    rw [hj] at h <;> simp only [] at h
  · simp at h
  · rcases hc : mapGet f.packuments u with - | q <;> rw [hc] at h <;> simp only [] at h
    · rcases hs : env.send u (if f.use_corgi then
            "application/vnd.npm.install-v1+json; q=1.0, application/json; q=0.8, */*"
          else "application/json") with m | m | data <;>
        rw [hs] at h <;> simp only [] at h
      · simp at h
      · simp at h
      · rcases hp : env.parse data with c | q <;> rw [hp] at h <;> simp only [] at h
        · simp at h
        · simp only [Prod.mk.injEq, Except.ok.injEq] at h
          obtain ⟨rfl, rfl, -⟩ := h
          refine ⟨[.lockAcquire, .lockRelease, .cacheLookup u], ?_, ?_⟩
          · simp only [NpmFetcher.packument_from_name, pick_registry_ignores_cache, hj]
            simp [mapGet]
          · intro v a
            simp
    · simp only [Prod.mk.injEq, Except.ok.injEq] at h
      obtain ⟨rfl, rfl, -⟩ := h
      refine ⟨[.lockAcquire, .lockRelease, .cacheLookup u], ?_, ?_⟩
      · simp only [NpmFetcher.packument_from_name, hj, hc]
      · intro v a
        simp

/-- Witness for C1: a successful first fetch of "x" through `envOk`,
then the cached second call. -/
theorem second_call_hits_cache_witness :
    NpmFetcher.packument_from_name envOk ⟨false, [], []⟩ none "x" =
      (.ok packW, fetcherW2, trW) ∧
    ∃ tr', NpmFetcher.packument_from_name envOk fetcherW2 none "x" =
        (.ok packW, fetcherW2, tr') ∧
      ∀ u a, Event.networkRequest u a ∉ tr' :=
  ⟨by decide,
    second_call_hits_cache envOk ⟨false, [], []⟩ none "x" packW fetcherW2 trW (by decide)⟩

/-- Claim C9: both `packument_from_name` and `tarball` acquire the client
mutex exactly once, at the very start, and release it immediately after
cloning the client — before every other event, in particular before any
network request; the lock is never held across network I/O. -/
theorem lock_released_before_network (env : Env) (f : NpmFetcher) (scope : Option String)
    (name : String) (pkg : Package) :
    lockDiscipline (NpmFetcher.packument_from_name env f scope name).2.2 ∧
    lockDiscipline (NpmFetcher.tarball env f pkg).2 := by
  constructor
  · simp only [NpmFetcher.packument_from_name]
    repeat' split
    all_goals refine ⟨_, rfl, ?_, ?_⟩ <;> simp
  · simp only [NpmFetcher.tarball]
    repeat' split
    all_goals refine ⟨_, rfl, ?_, ?_⟩ <;> simp
